import Mathlib

/-!
Verification of the Gruntled leadership self-assessment app (src/app.py).

The development shallowly embeds the app's data model and the operations the
properties talk about:

* Python dicts are embedded as association lists (`List (key × value)`), which
  preserves Python's insertion-order semantics: updating an existing key keeps
  its position, assigning a fresh key appends it at the end.
* Machine integers do not overflow here (Python ints are unbounded), so ratings
  and totals are Lean `Int`s.
* The on-disk data directory is a list of `(filename, file content)` pairs; a
  file's content is modelled by its JSON parse outcome (`FileContent.record`
  for a unit that parses as an assessment record, `FileContent.corrupt` for a
  unit on which `json.load` raises `JSONDecodeError`), matching the spec's
  scoping that the JSON I/O mechanics themselves are external and only the
  record schema is in scope.
* `random.shuffle` is embedded by quantifying over the shuffle's outcome,
  constrained to be a permutation of the list it shuffles.
-/

/-- One leadership competency dimension of the catalog: display title and the
ordered statements, each a (statement key, prompt text) pair
(src/app.py, `dimensions`, lines 411-500). -/
structure Dimension where
  title : String
  statements : List (String × String)
deriving DecidableEq, Repr

/-- The competency catalog: the `dimensions` dict of src/app.py (lines 411-500),
eight dimensions of six statements each, in source order. -/
def dimensions : List (String × Dimension) := [
  ("purpose_vision",
    { title := "Purpose & Vision",
      statements := [
        ("vision", "Creates and effectively communicates a compelling vision for the future"),
        ("values", "Clearly defines and consistently reinforces organizational values through actions"),
        ("strategic", "Considers long-term implications and broader context in decision making"),
        ("meaningful", "Helps others understand how their work contributes to larger organizational goals"),
        ("legacy", "Takes actions today that will have positive long-term impact on the organization"),
        ("why", "Clearly communicates the 'why' behind decisions and direction")] }),
  ("execution_impact",
    { title := "Execution & Impact",
      statements := [
        ("prioritize", "Effectively prioritizes tasks and initiatives based on strategic importance"),
        ("resources", "Allocates and manages resources efficiently to achieve desired outcomes"),
        ("quality", "Consistently delivers high-quality results that meet or exceed expectations"),
        ("expectations", "Establishes and maintains clear performance expectations and accountability"),
        ("goals", "Sets specific, measurable, achievable, relevant, and time-bound goals"),
        ("recognition", "Recognizes and appreciates others' contributions and achievements")] }),
  ("trust_authenticity",
    { title := "Trust & Authenticity",
      statements := [
        ("listening", "Practices active listening and demonstrates clear understanding of others' perspectives"),
        ("sharing", "Shares information clearly and openly with others"),
        ("conversations", "Engages in difficult conversations with candor and respect"),
        ("safety", "Creates an environment where team members feel safe to speak up and take risks"),
        ("followthrough", "Does what they say they will do by following through on commitments"),
        ("attention", "Gives full, undivided attention during interactions with others")] }),
  ("emotional_intelligence",
    { title := "Emotional Intelligence",
      statements := [
        ("awareness", "Demonstrates awareness of own emotions and their impact on others"),
        ("composure", "Maintains composure and effectiveness under pressure"),
        ("recognition", "Recognizes and appropriately responds to others' emotions and needs"),
        ("respect", "Consistently treats all people with dignity and respect"),
        ("conflict", "Addresses and resolves conflicts constructively and professionally"),
        ("feedback", "Seeks and acts on feedback about own performance")] }),
  ("people_development",
    { title := "People Development",
      statements := [
        ("learning", "Actively supports and encourages continuous learning and development"),
        ("coaching", "Provides effective coaching and mentoring to develop others' capabilities"),
        ("strengths", "Identifies and leverages individual and team member strengths"),
        ("growth", "Helps team members identify and pursue career growth opportunities"),
        ("boundaries", "Supports healthy work-life boundaries and personal well-being"),
        ("motivation", "Understands and responds to what motivates different team members")] }),
  ("team_leadership",
    { title := "Team Leadership",
      statements := [
        ("collaboration", "Promotes effective collaboration and teamwork across the group"),
        ("decisions", "Involves team members appropriately in decisions that affect their work"),
        ("viewpoints", "Actively seeks and incorporates different viewpoints and ideas"),
        ("environment", "Creates a positive team environment where people enjoy their work"),
        ("unity", "Actively breaks down silos and promotes organizational unity"),
        ("recognition", "Recognizes team and individual contributions meaningfully")] }),
  ("change_management",
    { title := "Change Management",
      statements := [
        ("strategy", "Develops clear change implementation strategies"),
        ("pace", "Effectively manages the pace and sequence of change"),
        ("resistance", "Identifies and constructively addresses resistance to change"),
        ("execution", "Develops and executes well-structured plans for implementing change"),
        ("sustainability", "Ensures changes are successfully embedded and sustained over time"),
        ("assumptions", "Challenges personal assumptions and biases during change")] }),
  ("strategic_influence",
    { title := "Strategic Influence",
      statements := [
        ("boundaries", "Effectively influences decisions and actions across organizational boundaries"),
        ("stakeholders", "Builds and maintains productive relationships with key stakeholders"),
        ("community", "Actively engages in and promotes community service and social responsibility"),
        ("innovation", "Promotes and supports innovative thinking and creative solutions"),
        ("trends", "Anticipates future trends and positions the organization for success"),
        ("networks", "Builds strong networks across the organization and community")] })]

/-- The dimension identifiers, in catalog order (the keys of the `dimensions`
dict; `st.session_state.page in dimensions` tests membership here). -/
def dimension_keys : List String := dimensions.map Prod.fst

/-- The statement keys of one dimension of the catalog (empty for an unknown
dimension id, which the catalog never produces). -/
def statement_keys (dimension_key : String) : List String :=
  match dimensions.lookup dimension_key with
  | none => []
  | some d => d.statements.map Prod.fst

/-- All (dimension key, statement key) pairs of the catalog, in catalog order. -/
def catalog_pairs : List (String × String) :=
  dimensions.flatMap (fun p => p.2.statements.map (fun q => (p.1, q.1)))

/-- The five interpretation bands of the app. -/
inductive ScoreBand where
  | high
  | medium_high
  | medium
  | medium_low
  | low
deriving DecidableEq, Repr

/-- The band selection chain of src/app.py: `if score >= 51: level = 'high'
elif score >= 41: ... else: level = 'low'`; the identical chain appears in
`show_coach_summary` (lines 182-191) and in `generate_assessment_pdf`
(lines 240-249). -/
def score_level (score : Int) : ScoreBand :=
  if score ≥ 51 then ScoreBand.high
  else if score ≥ 41 then ScoreBand.medium_high
  else if score ≥ 31 then ScoreBand.medium
  else if score ≥ 21 then ScoreBand.medium_low
  else ScoreBand.low

/-- The band thresholds as the spec words them (inclusive ranges: high ≥ 51,
medium_high 41-50, medium 31-40, medium_low 21-30, low ≤ 20), written for the
refinement comparison with `score_level`. -/
def spec_band (total : Int) : ScoreBand :=
  if 51 ≤ total then ScoreBand.high
  else if 41 ≤ total ∧ total ≤ 50 then ScoreBand.medium_high
  else if 31 ≤ total ∧ total ≤ 40 then ScoreBand.medium
  else if 21 ≤ total ∧ total ≤ 30 then ScoreBand.medium_low
  else ScoreBand.low

/-- A per-statement rating map of one dimension: Python dict statement key to
integer rating, as an association list. -/
abbrev RatingMap := List (String × Int)

/-- The session score map: Python dict dimension key to per-statement ratings. -/
abbrev ScoreMap := List (String × RatingMap)

/-- Embeds `calculate_dimension_score` (src/app.py lines 39-42):
`if dimension_key not in scores: return 0; return sum(scores[dimension_key].values())`. -/
def calculate_dimension_score (scores : ScoreMap) (dimension_key : String) : Int :=
  match scores.lookup dimension_key with
  | none => 0
  | some m => (m.map Prod.snd).sum

/-- The ratings recorded for one dimension in a score map (the multiset the
spec's "arithmetic sum of recorded ratings per dimension" ranges over): all
rating values stored under that dimension key. -/
def recorded_ratings (scores : ScoreMap) (dimension_key : String) : List Int :=
  ((scores.filter (fun p => p.1 == dimension_key)).map (fun p => p.2.map Prod.snd)).flatten

/-- Embeds the dimension-score recomputation loop that appears three times in
src/app.py (`show_coach_summary` lines 121-123, `save_assessment_data` lines
387-389, thank-you page lines 859-861):
`for dimension_key, scores in ...: dimension_scores[dimension_key] = sum(scores.values())`. -/
def recompute_dimension_scores (scores : ScoreMap) : List (String × Int) :=
  scores.map (fun p => (p.1, (p.2.map Prod.snd).sum))

/-- One entry of the randomized question sequence, as built at src/app.py
lines 507-512 and 760-765. -/
structure Question where
  dimension_key : String
  statement_key : String
  statement : String
  question_number : Nat
deriving DecidableEq, Repr

/-- The question list before shuffling: all (dimension, statement) pairs in
catalog order, numbered 1 upward (`all_questions.append({... 'question_number':
len(all_questions) + 1})`, src/app.py lines 504-512). -/
def all_questions : List Question :=
  ((dimensions.flatMap (fun p => p.2.statements.map (fun q => (p.1, q.1, q.2)))).enum).map
    (fun e => { dimension_key := e.2.1, statement_key := e.2.2.1,
                statement := e.2.2.2, question_number := e.1 + 1 })

/-- The slice of `st.session_state` the question sequencer touches:
`randomized_questions` is absent until the first generation. -/
structure QSession where
  randomized_questions : Option (List Question)
deriving DecidableEq, Repr

/-- Embeds `generate_randomized_questions` (src/app.py lines 502-521). The
outcome of `random.shuffle` is passed in as `shuffled`; the caller constrains
it to be a permutation of `all_questions`, which quantifies over every shuffle
outcome. The function caches the sequence in session state and returns the
cached list on any later call. -/
def generate_randomized_questions (shuffled : List Question) (s : QSession) :
    List Question × QSession :=
  match s.randomized_questions with
  | some qs => (qs, s)
  | none => (shuffled, { randomized_questions := some shuffled })

/-- The persisted record schema written by `save_assessment_data` (src/app.py
lines 391-399). `assessment_start` is an `Option` because legacy records on
disk may lack the field, which the loader backfills. -/
structure AssessmentRecord where
  coachee_name : String
  coachee_email : String
  coachee_phone : String
  assessment_start : Option String
  completion_time : String
  scores : ScoreMap
  dimension_scores : List (String × Int)
deriving DecidableEq, Repr

/-- A stored unit of the data directory, modelled by its JSON parse outcome:
`record` for a unit `json.load` parses as an assessment record, `corrupt` for a
unit on which `json.load` raises `JSONDecodeError`. -/
inductive FileContent where
  | record (a : AssessmentRecord)
  | corrupt
deriving DecidableEq, Repr

/-- Whether a stored unit parses (is not corrupt). -/
def FileContent.isRecord : FileContent → Bool
  | FileContent.record _ => true
  | FileContent.corrupt => false

/-- The data directory: filenames with their contents, in `os.listdir` order. -/
abbrev Store := List (String × FileContent)

/-- Python's `filename.endswith(t)`: the last characters of `s` equal `t`. -/
def py_endswith (s t : String) : Bool :=
  s.data.reverse.take t.data.length == t.data.reverse

/-- Writing a file with `open(path, 'w')`: an existing file of that name is
overwritten in place, a fresh name is created (appended in listing order). -/
def update_store : Store → String → FileContent → Store
  | [], fname, c => [(fname, c)]
  | e :: rest, fname, c =>
    if e.1 == fname then (fname, c) :: rest else e :: update_store rest fname c

/-- The storage name built by `save_assessment_data` (src/app.py line 402):
`f"assessment_{st.session_state.coachee_email}_{datetime.now().strftime('%Y%m%d_%H%M%S')}.json"`,
with the formatted timestamp passed in as `ts`. -/
def data_filename (email ts : String) : String :=
  "assessment_" ++ email ++ "_" ++ ts ++ ".json"

/-- The record dict assembled by `save_assessment_data` (src/app.py lines
386-399): identity fields, timestamps, the session score map, and the
precomputed per-dimension totals. -/
def build_record (name email phone a_start : String) (scores : ScoreMap)
    (now_iso : String) : AssessmentRecord :=
  { coachee_name := name
    coachee_email := email
    coachee_phone := phone
    assessment_start := some a_start
    completion_time := now_iso
    scores := scores
    dimension_scores := recompute_dimension_scores scores }

/-- Embeds `save_assessment_data` (src/app.py lines 381-406): builds the record
and writes it to the data directory under `data_filename`. `now_ts` is the
formatted save-time timestamp and `now_iso` the ISO completion time. -/
def save_assessment_data (name email phone a_start : String) (scores : ScoreMap)
    (now_ts now_iso : String) (store : Store) : Store :=
  update_store store (data_filename email now_ts)
    (FileContent.record (build_record name email phone a_start scores now_iso))

/-- One assessment as the reviewer flow holds it after loading: the parsed
record (with `assessment_start` backfilled) plus the filename the loader stores
into it (`assessment['filename'] = filename`, src/app.py line 59). -/
structure LoadedAssessment where
  data : AssessmentRecord
  filename : String
deriving DecidableEq, Repr

/-- Embeds the reviewer flow's load-all loop (src/app.py lines 53-65): every
`.json` unit of the data directory is parsed; a unit that raises
`JSONDecodeError` is skipped (`except json.JSONDecodeError: continue`); a
parsed record gets its filename attached and a missing `assessment_start`
replaced by the sentinel epoch value. -/
def load_assessments (store : Store) : List LoadedAssessment :=
  store.flatMap (fun e =>
    if py_endswith e.1 ".json" then
      match e.2 with
      | FileContent.record a =>
          [{ data := { a with assessment_start := some (a.assessment_start.getD "1970-01-01T00:00:00") },
             filename := e.1 }]
      | FileContent.corrupt => []
    else [])

/-- Embeds the standalone helper `load_all_results` (src/app.py lines 25-32),
which the app never calls: it reads each `.json` unit with a bare `json.load`,
so a unit that fails to parse raises `JSONDecodeError` out of the whole loop
(modelled as `Except.error`) instead of being skipped. -/
def load_all_results : Store → Except String (List AssessmentRecord)
  | [] => Except.ok []
  | e :: rest =>
    if py_endswith e.1 ".json" then
      match e.2 with
      | FileContent.record a => (load_all_results rest).map (fun l => a :: l)
      | FileContent.corrupt => Except.error "JSONDecodeError"
    else load_all_results rest

/-- Outcome of the reviewer's confirmed delete action (src/app.py lines 92-95):
either `os.remove` succeeds and the success message is shown, or `os.remove`
raises; there is no try/except around it, so the exception propagates
unhandled. -/
inductive DeleteOutcome where
  | success (store : Store)
  | raised (exc : String)
deriving DecidableEq, Repr

/-- Embeds the confirmed-delete branch (src/app.py lines 92-95):
`os.remove(os.path.join('data', assessment['filename']))`. `os.remove` deletes
the named file when it exists and raises `FileNotFoundError` when it does not. -/
def delete_assessment (filename : String) (store : Store) : DeleteOutcome :=
  if store.any (fun e => e.1 == filename) then
    DeleteOutcome.success (store.filter (fun e => !(e.1 == filename)))
  else
    DeleteOutcome.raised "FileNotFoundError"

/-- What one run of the top-level routing chain (src/app.py lines 817-940)
renders, with a Python `TypeError` from a call whose argument count does not
match the callee's parameter count as its own outcome. -/
inductive RouteOutcome where
  | coach_summary
  | welcome_page
  | wizard_page
  | thank_you_page
  | typeError
  | no_route
deriving DecidableEq, Repr

/-- Parameter count of `def show_wizard_page():` (src/app.py line 752): the
function is declared with no parameters. -/
def show_wizard_page_params : Nat := 0

/-- A Python call of `show_wizard_page` with `args` positional arguments:
Python raises `TypeError` when the argument count does not match the declared
parameter count, and only otherwise runs the body (rendering the page). -/
def call_show_wizard_page (args : Nat) : RouteOutcome :=
  if args == show_wizard_page_params then RouteOutcome.wizard_page
  else RouteOutcome.typeError

/-- Embeds the main routing chain (src/app.py lines 817-940): coach check
first, then the `st.session_state.page` dispatch; the final branch (lines
939-940) fires when the page value is a key of `dimensions` and calls
`show_wizard_page(st.session_state.page)` with one positional argument. -/
def main_route (is_coach : Bool) (page : String) : RouteOutcome :=
  if is_coach then RouteOutcome.coach_summary
  else if page == "welcome" then RouteOutcome.welcome_page
  else if page == "assessment" then call_show_wizard_page 0
  else if page == "thank_you" then RouteOutcome.thank_you_page
  else if page ∈ dimension_keys then call_show_wizard_page 1
  else RouteOutcome.no_route

/-- The slice of `st.session_state` the intake form touches (initialized at
src/app.py lines 361-376; `page` starts as `'welcome'`, the coachee fields as
`None`). -/
structure SessionState where
  page : String
  scores : ScoreMap
  coachee_name : Option String
  coachee_email : Option String
  coachee_phone : Option String
  assessment_start : Option String
deriving DecidableEq, Repr

/-- Embeds the intake form submit handler (src/app.py lines 839-849): Python's
`if name and email:` is string truthiness, so the transition fires exactly when
both are non-empty; on success the coachee fields and the start timestamp are
stored and the page advances to `'assessment'`; otherwise only the error
message is shown (the returned `Bool`) and the state is returned untouched. -/
def coachee_info_submit (s : SessionState) (name email phone now : String) :
    SessionState × Bool :=
  if name ≠ "" ∧ email ≠ "" then
    ({ s with coachee_name := some name
              coachee_email := some email
              coachee_phone := some phone
              assessment_start := some now
              page := "assessment" }, false)
  else
    (s, true)

/-- The rating dropdown's options dict (src/app.py lines 783-794): keys 1-10
with their descriptions. `st.selectbox` is fed `sorted(options.keys())`, which
is this list's keys (already in ascending order), and defaults to the first
entry, so the selected value is always one of these keys. -/
def rating_options : List (Int × String) := [
  (1, "Does not yet demonstrate this behavior"),
  (2, "Very rarely demonstrates this behavior"),
  (3, "Rarely demonstrates this behavior"),
  (4, "Occasionally demonstrates this behavior"),
  (5, "Inconsistently demonstrates this behavior"),
  (6, "Sometimes demonstrates this behavior"),
  (7, "Often demonstrates this behavior"),
  (8, "Frequently demonstrates this behavior"),
  (9, "Consistently exemplifies this behavior"),
  (10, "Consistently exemplifies this behavior and teaches others")]

/-- The selectable rating values: `sorted(options.keys())`. -/
def rating_keys : List Int := rating_options.map Prod.fst

/-- Python dict assignment `m[sk] = v` on a rating map: an existing key keeps
its position and gets the new value, a fresh key is appended. -/
def set_rating : RatingMap → String → Int → RatingMap
  | [], sk, v => [(sk, v)]
  | q :: rest, sk, v =>
    if q.1 == sk then (sk, v) :: rest else q :: set_rating rest sk v

/-- The response-storing statements of `show_wizard_page` (src/app.py lines
806-808): `if q['dimension_key'] not in st.session_state.scores:
st.session_state.scores[q['dimension_key']] = {}` then
`st.session_state.scores[q['dimension_key']][q['statement_key']] = selected`. -/
def set_score : ScoreMap → String → String → Int → ScoreMap
  | [], dk, sk, v => [(dk, [(sk, v)])]
  | p :: rest, dk, sk, v =>
    if p.1 == dk then (p.1, set_rating p.2 sk v) :: rest
    else p :: set_score rest dk sk v

/-- One loop iteration of `show_wizard_page` for question `q` (src/app.py lines
805-808): `if selected:` is integer truthiness, so the selected value is stored
unless it is 0. -/
def store_response (scores : ScoreMap) (q : Question) (selected : Int) : ScoreMap :=
  if selected ≠ 0 then set_score scores q.dimension_key q.statement_key selected
  else scores

/-- The question loop of `show_wizard_page` (src/app.py lines 775-808) over the
session's randomized question list: each rendered question's selected rating
(the `choice` function, one `st.selectbox` value per question) is stored into
the score map in order. -/
def show_wizard_render (questions : List Question) (choice : Question → Int)
    (scores : ScoreMap) : ScoreMap :=
  questions.foldl (fun sc q => store_response sc q (choice q)) scores

/-- Rating lookup in the session score map: `st.session_state.scores[dk][sk]`
when both keys are present. -/
def lookup_rating (scores : ScoreMap) (dk sk : String) : Option Int :=
  (scores.lookup dk).bind (fun m => m.lookup sk)

/-- Invariant maintained by the wizard page's score writes: every stored entry
sits under a (dimension, statement) key pair of the catalog, every stored
rating lies in [1,10], and no inner rating map repeats a statement key. -/
def wizard_inv (sc : ScoreMap) : Prop :=
  (∀ p ∈ sc, ∀ r ∈ p.2, (p.1, r.1) ∈ catalog_pairs ∧ 1 ≤ r.2 ∧ r.2 ≤ 10) ∧
  (∀ p ∈ sc, (p.2.map Prod.fst).Nodup)

/-! ## Shared lemmas -/

theorem lookup_mem {α β : Type} [BEq α] [LawfulBEq α] {l : List (α × β)} {k : α} {v : β}
    (h : l.lookup k = some v) : (k, v) ∈ l := by
  induction l with
  | nil => simp [List.lookup] at h
  | cons p l ih =>
    rcases p with ⟨a, b⟩
    rw [List.lookup_cons] at h
    by_cases hk : k == a
    · simp [hk] at h
      simp [eq_of_beq hk, h]
    · simp [hk] at h
      exact List.mem_cons_of_mem _ (ih h)

theorem mem_keys_of_lookup {α β : Type} [BEq α] [LawfulBEq α] {l : List (α × β)} {k : α} {v : β}
    (h : l.lookup k = some v) : k ∈ l.map Prod.fst :=
  List.mem_map.mpr ⟨(k, v), lookup_mem h, rfl⟩

theorem count_one_of_nodup_mem {α : Type} [BEq α] [LawfulBEq α] {l : List α} {a : α}
    (hnd : l.Nodup) (h : a ∈ l) : l.count a = 1 := by
  induction l with
  | nil => simp at h
  | cons b l ih =>
    rw [List.count_cons]
    rcases List.mem_cons.mp h with rfl | hmem
    · have hz : l.count a = 0 := List.count_eq_zero.mpr (List.nodup_cons.mp hnd).1
      simp [hz]
    · have hne : b ≠ a := fun e => (List.nodup_cons.mp hnd).1 (e ▸ hmem)
      simp [ih (List.nodup_cons.mp hnd).2 hmem, beq_false_of_ne hne]

theorem perm_count_eq {α : Type} [BEq α] [LawfulBEq α] {l₁ l₂ : List α}
    (h : l₁.Perm l₂) (a : α) : l₁.count a = l₂.count a := by
  induction h with
  | nil => rfl
  | cons x h ih => rw [List.count_cons, List.count_cons, ih]
  | swap x y l => rw [List.count_cons, List.count_cons, List.count_cons, List.count_cons]; omega
  | trans h1 h2 ih1 ih2 => rw [ih1, ih2]

theorem all_questions_pairs :
    all_questions.map (fun q => (q.dimension_key, q.statement_key)) = catalog_pairs := by
  decide

theorem catalog_pairs_nodup : catalog_pairs.Nodup := by decide

theorem all_questions_length : all_questions.length = 48 := by decide

/-! ## C1 -/

/-- C1: for every integer total, the interpretation band computed by the app's
selection chain agrees with the spec's fixed inclusive thresholds (high ≥ 51,
medium_high 41-50, medium 31-40, medium_low 21-30, low ≤ 20), and the boundary
totals 20, 21, 30, 31, 40, 41, 50, 51 and 60 fall into the bands the spec
names for them. -/
theorem c1_band_thresholds :
    (∀ total : Int, score_level total = spec_band total) ∧
    score_level 20 = ScoreBand.low ∧ score_level 21 = ScoreBand.medium_low ∧
    score_level 30 = ScoreBand.medium_low ∧ score_level 31 = ScoreBand.medium ∧
    score_level 40 = ScoreBand.medium ∧ score_level 41 = ScoreBand.medium_high ∧
    score_level 50 = ScoreBand.medium_high ∧ score_level 51 = ScoreBand.high ∧
    score_level 60 = ScoreBand.high := by
  refine ⟨?_, by decide, by decide, by decide, by decide, by decide, by decide,
    by decide, by decide, by decide⟩
  intro total
  unfold score_level spec_band
  split_ifs <;> first | rfl | omega

/-! ## C2 -/

theorem calc_eq_recorded (scores : ScoreMap) (key : String)
    (hkeys : (scores.map Prod.fst).Nodup) :
    calculate_dimension_score scores key = (recorded_ratings scores key).sum := by
  induction scores with
  | nil => simp [calculate_dimension_score, recorded_ratings, List.lookup]
  | cons p rest ih =>
    rcases p with ⟨k, m⟩
    rw [List.map_cons, List.nodup_cons] at hkeys
    obtain ⟨hk, hrest⟩ := hkeys
    by_cases h : key = k
    · subst h
      have hfilter : rest.filter (fun p => p.1 == key) = [] := by
        rw [List.filter_eq_nil_iff]
        intro a ha hbeq
        exact hk (List.mem_map.mpr ⟨a, ha, eq_of_beq hbeq⟩)
      simp [calculate_dimension_score, recorded_ratings, List.lookup_cons, hfilter]
    · have hbeq1 : (key == k) = false := beq_false_of_ne h
      have hbeq2 : (k == key) = false := beq_false_of_ne (Ne.symm h)
      simp [calculate_dimension_score, recorded_ratings, List.lookup_cons, hbeq1,
        hbeq2] at ih ⊢
      exact ih hrest

/-- C2: for a score map whose keys come from the catalog (with each dimension
recorded at most once, as in a Python dict), `calculate_dimension_score` equals
the arithmetic sum of the ratings recorded for the queried dimension, and a
dimension with no recorded ratings yields 0 (the function is total, so no
error is raised). -/
theorem c2_dimension_totals (scores : ScoreMap) (key : String)
    (_hcat : ∀ p ∈ scores, p.1 ∈ dimension_keys)
    (hkeys : (scores.map Prod.fst).Nodup) :
    calculate_dimension_score scores key = (recorded_ratings scores key).sum ∧
    (scores.lookup key = none → calculate_dimension_score scores key = 0) := by
  refine ⟨calc_eq_recorded scores key hkeys, ?_⟩
  intro h
  simp [calculate_dimension_score, h]

/-- Witness for C2: a concrete score map with one recorded dimension; the other
catalog dimension has no recorded ratings and totals 0. -/
theorem c2_dimension_totals_witness :
    (calculate_dimension_score [("purpose_vision", [("vision", 7), ("values", 5)])]
        "purpose_vision" =
      (recorded_ratings [("purpose_vision", [("vision", 7), ("values", 5)])]
        "purpose_vision").sum) ∧
    (([("purpose_vision", [("vision", 7), ("values", 5)])] : ScoreMap).lookup
        "execution_impact" = none →
      calculate_dimension_score [("purpose_vision", [("vision", 7), ("values", 5)])]
        "execution_impact" = 0) :=
  ⟨(c2_dimension_totals [("purpose_vision", [("vision", 7), ("values", 5)])]
      "purpose_vision" (by decide) (by decide)).1,
   (c2_dimension_totals [("purpose_vision", [("vision", 7), ("values", 5)])]
      "execution_impact" (by decide) (by decide)).2⟩

/-! ## C3 -/

/-- C3: for every shuffle outcome (any permutation of the catalog-order
question list) and a session that has not generated its sequence yet, the
generator returns exactly 48 entries whose (dimension, statement) pairs cover
every catalog pair exactly once (no duplicates, no omissions), and every later
call in the session — whatever its shuffle outcome — returns the same cached
sequence and leaves the session unchanged. -/
theorem c3_question_sequence (shuffled : List Question) (s : QSession)
    (hshuffle : shuffled.Perm all_questions)
    (hfresh : s.randomized_questions = none) :
    (generate_randomized_questions shuffled s).1.length = 48 ∧
    (∀ p ∈ catalog_pairs,
      ((generate_randomized_questions shuffled s).1.map
        (fun q => (q.dimension_key, q.statement_key))).count p = 1) ∧
    (∀ q ∈ (generate_randomized_questions shuffled s).1,
      (q.dimension_key, q.statement_key) ∈ catalog_pairs) ∧
    (∀ shuffled2 : List Question,
      generate_randomized_questions shuffled2 (generate_randomized_questions shuffled s).2 =
        ((generate_randomized_questions shuffled s).1,
         (generate_randomized_questions shuffled s).2)) := by
  have hgen : generate_randomized_questions shuffled s =
      (shuffled, { randomized_questions := some shuffled }) := by
    unfold generate_randomized_questions
    rw [hfresh]
  rw [hgen]
  dsimp only
  refine ⟨?_, ?_, ?_, ?_⟩
  · rw [hshuffle.length_eq, all_questions_length]
  · intro p hp
    have hperm : (shuffled.map (fun q => (q.dimension_key, q.statement_key))).Perm
        catalog_pairs :=
      all_questions_pairs ▸ hshuffle.map (fun q => (q.dimension_key, q.statement_key))
    rw [perm_count_eq hperm]
    exact count_one_of_nodup_mem catalog_pairs_nodup hp
  · intro q hq
    have hmem : (q.dimension_key, q.statement_key) ∈
        all_questions.map (fun q => (q.dimension_key, q.statement_key)) :=
      List.mem_map.mpr ⟨q, hshuffle.mem_iff.mp hq, rfl⟩
    rwa [all_questions_pairs] at hmem
  · intro shuffled2
    rfl

/-- Witness for C3: the identity shuffle outcome on a fresh session. -/
theorem c3_question_sequence_witness :
    (generate_randomized_questions all_questions
      { randomized_questions := none }).1.length = 48 :=
  (c3_question_sequence all_questions { randomized_questions := none }
    (List.Perm.refl all_questions) rfl).1

/-! ## C5 -/

/-- C5: the reviewer flow's load-all loop never fails on a malformed unit:
inserting a corrupt unit anywhere in the data directory leaves the loaded
record list unchanged (the corrupt unit is skipped, the other records all
survive), and the number of loaded records always equals the number of
well-formed `.json` units in the directory. -/
theorem c5_load_all_skips_malformed :
    (∀ (pre post : Store) (f : String),
      load_assessments (pre ++ (f, FileContent.corrupt) :: post) =
        load_assessments (pre ++ post)) ∧
    (∀ store : Store, (load_assessments store).length =
      (store.filter (fun e => py_endswith e.1 ".json" && e.2.isRecord)).length) := by
  constructor
  · intro pre post f
    simp [load_assessments]
  · intro store
    induction store with
    | nil => rfl
    | cons e rest ih =>
      rcases e with ⟨f, c⟩
      cases c <;> by_cases h : py_endswith f ".json" <;>
        simp [load_assessments, List.filter_cons, FileContent.isRecord, h] <;>
        simpa [load_assessments] using ih

/-! ## Store lemmas -/

theorem update_store_fresh (store : Store) (f : String) (c : FileContent)
    (h : store.lookup f = none) : update_store store f c = store ++ [(f, c)] := by
  induction store with
  | nil => rfl
  | cons e rest ih =>
    rw [List.lookup_cons] at h
    by_cases hb : f == e.1
    · simp [hb] at h
    · have hne : e.1 ≠ f := fun hh => by simp [hh] at hb
      simp only [update_store, beq_false_of_ne hne, Bool.false_eq_true, if_false,
        List.cons_append, List.cons.injEq, true_and]
      exact ih (by simpa [hb] using h)

theorem lookup_update_self (store : Store) (f : String) (c : FileContent) :
    (update_store store f c).lookup f = some c := by
  induction store with
  | nil => simp [update_store, List.lookup_cons]
  | cons e rest ih =>
    rcases e with ⟨a, b⟩
    by_cases hb : a == f
    · simp [update_store, hb, List.lookup_cons]
    · have hne : f ≠ a := fun hh => by simp [hh] at hb
      simp [update_store, hb, List.lookup_cons, beq_false_of_ne hne, ih]

theorem lookup_update_other (store : Store) (f g : String) (c : FileContent)
    (h : g ≠ f) : (update_store store f c).lookup g = store.lookup g := by
  induction store with
  | nil => simp [update_store, List.lookup_cons, beq_false_of_ne h]
  | cons e rest ih =>
    rcases e with ⟨a, b⟩
    by_cases hb : a == f
    · have he : a = f := eq_of_beq hb
      simp [update_store, hb, List.lookup_cons, he, beq_false_of_ne h]
    · simp [update_store, hb, List.lookup_cons, ih]

theorem py_endswith_json (s : String) : py_endswith (s ++ ".json") ".json" = true := by
  unfold py_endswith
  rw [String.data_append, List.reverse_append]
  have hlen : (".json".data.length) = (".json".data.reverse.length) :=
    (List.length_reverse _).symm
  rw [hlen, List.take_left]
  exact beq_self_eq_true _

theorem recompute_lookup (scores : ScoreMap) (k : String) :
    (recompute_dimension_scores scores).lookup k =
      (scores.lookup k).map (fun m => (m.map Prod.snd).sum) := by
  induction scores with
  | nil => rfl
  | cons p rest ih =>
    rcases p with ⟨a, m⟩
    by_cases hb : k == a
    · simp [recompute_dimension_scores, List.lookup_cons, hb]
    · simp only [recompute_dimension_scores, List.map_cons, List.lookup_cons, hb]
      simpa [recompute_dimension_scores] using ih

/-! ## C4 -/

/-- C4: saving an assessment to a fresh storage name and loading the directory
back yields a loaded record (under the saved filename) whose scores mapping is
identical to the one saved, whose stored `dimension_scores` field equals the
totals recomputed from those scores, and whose recomputed totals agree with
`calculate_dimension_score` on every recorded dimension. -/
theorem c4_save_load_roundtrip (name email phone a_start : String) (scores : ScoreMap)
    (now_ts now_iso : String) (store : Store)
    (hfresh : store.lookup (data_filename email now_ts) = none) :
    ∃ la ∈ load_assessments
        (save_assessment_data name email phone a_start scores now_ts now_iso store),
      la.filename = data_filename email now_ts ∧
      la.data.scores = scores ∧
      la.data.dimension_scores = recompute_dimension_scores la.data.scores ∧
      (∀ k m, la.data.scores.lookup k = some m →
        (recompute_dimension_scores la.data.scores).lookup k =
          some (calculate_dimension_score la.data.scores k)) := by
  have hsave : save_assessment_data name email phone a_start scores now_ts now_iso store =
      store ++ [(data_filename email now_ts,
        FileContent.record (build_record name email phone a_start scores now_iso))] :=
    update_store_fresh store _ _ hfresh
  rw [hsave]
  refine ⟨⟨build_record name email phone a_start scores now_iso,
    data_filename email now_ts⟩, ?_, rfl, rfl, rfl, ?_⟩
  · unfold load_assessments
    rw [List.flatMap_append]
    refine List.mem_append_right _ ?_
    simp only [List.flatMap_cons, List.flatMap_nil, data_filename, py_endswith_json,
      if_true, List.append_nil]
    simp [build_record]
  · intro k m hk
    rw [recompute_lookup, hk]
    simp [calculate_dimension_score, hk]

/-- Witness for C4: a concrete record saved into an empty directory. -/
theorem c4_save_load_roundtrip_witness :
    ∃ la ∈ load_assessments (save_assessment_data "Jane Doe" "jane@example.com" ""
        "2025-01-01T10:00:00" [("purpose_vision", [("vision", 7)])]
        "20250101_120000" "2025-01-01T10:12:00" []),
      la.filename = data_filename "jane@example.com" "20250101_120000" ∧
      la.data.scores = [("purpose_vision", [("vision", 7)])] ∧
      la.data.dimension_scores = recompute_dimension_scores la.data.scores ∧
      (∀ k m, la.data.scores.lookup k = some m →
        (recompute_dimension_scores la.data.scores).lookup k =
          some (calculate_dimension_score la.data.scores k)) :=
  c4_save_load_roundtrip "Jane Doe" "jane@example.com" "" "2025-01-01T10:00:00"
    [("purpose_vision", [("vision", 7)])] "20250101_120000" "2025-01-01T10:12:00" [] rfl

/-! ## C6 -/

/-- C6 counterexample: with one stored assessment, the first confirmed delete
succeeds and removes the file, but repeating the delete of the same record id
makes `os.remove` raise `FileNotFoundError` (there is no try/except at
src/app.py lines 92-95 and no NotFound reporting), contradicting the claim
that the second delete reports NotFound rather than raising an unhandled
error. -/
theorem c6_counterexample :
    delete_assessment "assessment_jane@example.com_20250101_120000.json"
        [("assessment_jane@example.com_20250101_120000.json",
          FileContent.record (build_record "Jane Doe" "jane@example.com" ""
            "2025-01-01T10:00:00" [] "2025-01-01T10:12:00"))] =
      DeleteOutcome.success [] ∧
    delete_assessment "assessment_jane@example.com_20250101_120000.json" [] =
      DeleteOutcome.raised "FileNotFoundError" := by
  constructor
  · rfl
  · rfl

/-- C6 amended: deleting an existing record removes exactly the files of that
name and reports success; deleting a record id that is not present — in
particular the second of two consecutive deletes of the same id — raises an
unhandled `FileNotFoundError` from `os.remove` instead of reporting NotFound. -/
theorem c6_delete_twice (store : Store) (f : String)
    (h : store.any (fun e => e.1 == f) = true) :
    delete_assessment f store =
      DeleteOutcome.success (store.filter (fun e => !(e.1 == f))) ∧
    delete_assessment f (store.filter (fun e => !(e.1 == f))) =
      DeleteOutcome.raised "FileNotFoundError" := by
  constructor
  · unfold delete_assessment
    rw [if_pos h]
  · unfold delete_assessment
    have hnone : (store.filter (fun e => !(e.1 == f))).any (fun e => e.1 == f) = false := by
      rw [List.any_eq_false]
      intro x hx
      have hkeep := List.of_mem_filter hx
      simp at hkeep ⊢
      exact hkeep
    rw [hnone]
    simp

/-- Witness for C6's amended statement at a concrete one-record store. -/
theorem c6_delete_twice_witness :
    delete_assessment "a.json" [("a.json", FileContent.corrupt)] =
      DeleteOutcome.success ([("a.json", FileContent.corrupt)].filter
        (fun e => !(e.1 == "a.json"))) ∧
    delete_assessment "a.json" ([("a.json", FileContent.corrupt)].filter
        (fun e => !(e.1 == "a.json"))) =
      DeleteOutcome.raised "FileNotFoundError" :=
  c6_delete_twice [("a.json", FileContent.corrupt)] "a.json" rfl

/-! ## C7 -/

theorem string_data_inj {a b : String} (h : a.data = b.data) : a = b := by
  cases a
  cases b
  exact congrArg String.mk h

theorem data_filename_inj_email {e1 e2 ts : String}
    (h : data_filename e1 ts = data_filename e2 ts) : e1 = e2 := by
  unfold data_filename at h
  have hd : "assessment_".data ++ (e1.data ++ ("_".data ++ (ts.data ++ ".json".data))) =
      "assessment_".data ++ (e2.data ++ ("_".data ++ (ts.data ++ ".json".data))) := by
    have := congrArg String.data h
    simpa [String.data_append, List.append_assoc] using this
  have h1 := List.append_cancel_left hd
  have h2 := List.append_cancel_right h1
  exact string_data_inj h2

/-- C7: two saves by respondents with distinct emails, performed in the same
clock second (identical formatted timestamp `ts`), are written under distinct
storage names derived from the email and the timestamp; consequently neither
save overwrites the other — after both saves each record is still retrievable
under its own name. -/
theorem c7_distinct_save_names (e1 e2 ts : String)
    (n1 p1 a1 : String) (sc1 : ScoreMap) (iso1 : String)
    (n2 p2 a2 : String) (sc2 : ScoreMap) (iso2 : String) (store : Store)
    (hne : e1 ≠ e2) :
    data_filename e1 ts ≠ data_filename e2 ts ∧
    (save_assessment_data n2 e2 p2 a2 sc2 ts iso2
        (save_assessment_data n1 e1 p1 a1 sc1 ts iso1 store)).lookup
        (data_filename e1 ts) =
      some (FileContent.record (build_record n1 e1 p1 a1 sc1 iso1)) ∧
    (save_assessment_data n2 e2 p2 a2 sc2 ts iso2
        (save_assessment_data n1 e1 p1 a1 sc1 ts iso1 store)).lookup
        (data_filename e2 ts) =
      some (FileContent.record (build_record n2 e2 p2 a2 sc2 iso2)) := by
  have hfn : data_filename e1 ts ≠ data_filename e2 ts :=
    fun hh => hne (data_filename_inj_email hh)
  refine ⟨hfn, ?_, ?_⟩
  · unfold save_assessment_data
    rw [lookup_update_other _ _ _ _ hfn, lookup_update_self]
  · unfold save_assessment_data
    rw [lookup_update_self]

/-- Witness for C7: two concrete distinct emails saving in the same second
into an empty data directory. -/
theorem c7_distinct_save_names_witness :
    data_filename "alice@example.com" "20250101_120000" ≠
      data_filename "bob@example.com" "20250101_120000" ∧
    (save_assessment_data "Bob" "bob@example.com" "" "s2" [] "20250101_120000" "c2"
        (save_assessment_data "Alice" "alice@example.com" "" "s1" [] "20250101_120000"
          "c1" [])).lookup (data_filename "alice@example.com" "20250101_120000") =
      some (FileContent.record (build_record "Alice" "alice@example.com" "" "s1" [] "c1")) ∧
    (save_assessment_data "Bob" "bob@example.com" "" "s2" [] "20250101_120000" "c2"
        (save_assessment_data "Alice" "alice@example.com" "" "s1" [] "20250101_120000"
          "c1" [])).lookup (data_filename "bob@example.com" "20250101_120000") =
      some (FileContent.record (build_record "Bob" "bob@example.com" "" "s2" [] "c2")) :=
  c7_distinct_save_names "alice@example.com" "bob@example.com" "20250101_120000"
    "Alice" "" "s1" [] "c1" "Bob" "" "s2" [] "c2" [] (by decide)

/-! ## C8 -/

/-- C8: the intake submit handler advances the session exactly when both the
submitted name and email are non-empty (the phone may be anything, including
empty): on success the coachee fields and the assessment-start timestamp are
recorded and the page becomes the questionnaire page, with no error shown; on
failure (empty name or empty email) an error is shown and the session state is
returned entirely unchanged. -/
theorem c8_intake_validation (s : SessionState) (name email phone now : String) :
    (name ≠ "" ∧ email ≠ "" →
      coachee_info_submit s name email phone now =
        ({ s with coachee_name := some name
                  coachee_email := some email
                  coachee_phone := some phone
                  assessment_start := some now
                  page := "assessment" }, false)) ∧
    (name = "" ∨ email = "" →
      coachee_info_submit s name email phone now = (s, true)) := by
  constructor
  · intro h
    unfold coachee_info_submit
    rw [if_pos h]
  · intro h
    unfold coachee_info_submit
    rw [if_neg]
    intro hcontra
    rcases h with h | h
    · exact hcontra.1 h
    · exact hcontra.2 h

/-! ## C9 -/

/-- C9: whenever the persisted page state equals one of the catalog's
dimension identifiers (and the session is not the coach view), the final
routing branch calls `show_wizard_page` with one positional argument although
the function is declared with no parameters, so the branch raises `TypeError`
instead of rendering a page. -/
theorem c9_dimension_page_type_error (page : String)
    (h : page ∈ dimension_keys) :
    main_route false page = RouteOutcome.typeError := by
  fin_cases h <;> rfl

/-- Witness for C9: the first dimension key routes to the `TypeError` branch. -/
theorem c9_dimension_page_type_error_witness :
    main_route false "purpose_vision" = RouteOutcome.typeError :=
  c9_dimension_page_type_error "purpose_vision" (by decide)

/-! ## Wizard-page lemmas -/

theorem lookup_set_rating (m : RatingMap) (sk : String) (v : Int) (k : String) :
    (set_rating m sk v).lookup k = if k = sk then some v else m.lookup k := by
  induction m with
  | nil =>
    by_cases h : k = sk
    · simp [set_rating, List.lookup_cons, h]
    · simp [set_rating, List.lookup_cons, beq_false_of_ne h, h]
  | cons q rest ih =>
    rcases q with ⟨a, b⟩
    by_cases hqa : a == sk
    · have ha : a = sk := eq_of_beq hqa
      subst ha
      by_cases hk : k = a
      · simp [set_rating, List.lookup_cons, hk]
      · simp [set_rating, List.lookup_cons, beq_false_of_ne hk, hk]
    · have ha : a ≠ sk := fun e => by simp [e] at hqa
      by_cases hk : k = a
      · have hks : k ≠ sk := hk ▸ ha
        simp [set_rating, hqa, List.lookup_cons, hk, hks, ha]
      · simp [set_rating, hqa, List.lookup_cons, beq_false_of_ne hk, ih]

theorem lookup_set_score (sc : ScoreMap) (dk sk : String) (v : Int) (k : String) :
    (set_score sc dk sk v).lookup k =
      if k = dk then some (set_rating ((sc.lookup dk).getD []) sk v)
      else sc.lookup k := by
  induction sc with
  | nil =>
    by_cases h : k = dk
    · simp [set_score, List.lookup_cons, h, set_rating]
    · simp [set_score, List.lookup_cons, beq_false_of_ne h, h]
  | cons p rest ih =>
    rcases p with ⟨a, m⟩
    by_cases hpa : a == dk
    · have ha : a = dk := eq_of_beq hpa
      subst ha
      by_cases hk : k = a
      · simp [set_score, List.lookup_cons, hk]
      · simp [set_score, List.lookup_cons, beq_false_of_ne hk, hk]
    · have ha : a ≠ dk := fun e => by simp [e] at hpa
      by_cases hk : k = a
      · have hkd : k ≠ dk := hk ▸ ha
        simp [set_score, hpa, List.lookup_cons, hk, hkd, ha, beq_false_of_ne (Ne.symm ha)]
      · simp [set_score, hpa, List.lookup_cons, beq_false_of_ne hk, ih,
          beq_false_of_ne (Ne.symm ha)]

theorem lookup_rating_set_score (sc : ScoreMap) (dk sk : String) (v : Int)
    (dk' sk' : String) :
    lookup_rating (set_score sc dk sk v) dk' sk' =
      if dk' = dk ∧ sk' = sk then some v else lookup_rating sc dk' sk' := by
  unfold lookup_rating
  rw [lookup_set_score]
  by_cases hd : dk' = dk
  · subst hd
    by_cases hs : sk' = sk
    · subst hs
      simp [lookup_set_rating]
    · cases hml : sc.lookup dk' <;> simp [lookup_set_rating, hs, hml]
  · rw [if_neg hd, if_neg (fun hh : dk' = dk ∧ sk' = sk => hd hh.1)]

theorem lookup_rating_render (qs : List Question) (choice : Question → Int)
    (sc : ScoreMap) (hch : ∀ q ∈ qs, choice q ≠ 0) (dk sk : String) :
    lookup_rating (show_wizard_render qs choice sc) dk sk =
      match qs.reverse.find?
          (fun q => q.dimension_key == dk && q.statement_key == sk) with
      | some q => some (choice q)
      | none => lookup_rating sc dk sk := by
  induction qs generalizing sc with
  | nil => rfl
  | cons q qs ih =>
    have hstep : show_wizard_render (q :: qs) choice sc =
        show_wizard_render qs choice (store_response sc q (choice q)) := rfl
    rw [hstep, ih _ (fun x hx => hch x (List.mem_cons_of_mem q hx)), List.reverse_cons,
      List.find?_append]
    cases hrev : qs.reverse.find?
        (fun q => q.dimension_key == dk && q.statement_key == sk) with
    | some q' => simp
    | none =>
      simp only [Option.or]
      have hne : choice q ≠ 0 := hch q (List.mem_cons_self q qs)
      have hsr : store_response sc q (choice q) =
          set_score sc q.dimension_key q.statement_key (choice q) := by
        unfold store_response
        rw [if_pos hne]
      rw [hsr, lookup_rating_set_score]
      by_cases hp : q.dimension_key = dk ∧ q.statement_key = sk
      · have hq : (fun q : Question => q.dimension_key == dk && q.statement_key == sk) q
            = true := by
          simp [hp.1, hp.2]
        simp only [List.find?_cons, hq]
        have hcondp : dk = q.dimension_key ∧ sk = q.statement_key :=
          ⟨hp.1.symm, hp.2.symm⟩
        rw [if_pos hcondp]
      · have hq : (fun q : Question => q.dimension_key == dk && q.statement_key == sk) q
            = false := by
          rcases not_and_or.mp hp with h | h <;> simp [h]
        have hcond : ¬(dk = q.dimension_key ∧ sk = q.statement_key) := by
          intro hh
          exact hp ⟨hh.1.symm, hh.2.symm⟩
        simp only [List.find?_cons, hq]
        rw [if_neg hcond]
        rfl

theorem set_rating_mem (m : RatingMap) (sk : String) (v : Int) (r : String × Int)
    (hr : r ∈ set_rating m sk v) : r = (sk, v) ∨ r ∈ m := by
  induction m with
  | nil =>
    simp [set_rating] at hr
    left
    exact hr
  | cons q rest ih =>
    by_cases hq : q.1 == sk
    · simp only [set_rating, hq, if_true] at hr
      rcases List.mem_cons.mp hr with hr | hr
      · left
        exact hr
      · right
        exact List.mem_cons_of_mem _ hr
    · simp only [set_rating, hq, Bool.false_eq_true, if_false] at hr
      rcases List.mem_cons.mp hr with hr | hr
      · right
        exact hr ▸ List.mem_cons_self _ _
      · rcases ih hr with h | h
        · left
          exact h
        · right
          exact List.mem_cons_of_mem _ h

theorem set_rating_keys (m : RatingMap) (sk : String) (v : Int) :
    (set_rating m sk v).map Prod.fst =
      if sk ∈ m.map Prod.fst then m.map Prod.fst else m.map Prod.fst ++ [sk] := by
  induction m with
  | nil => simp [set_rating]
  | cons q rest ih =>
    by_cases hq : q.1 == sk
    · have he : q.1 = sk := eq_of_beq hq
      simp [set_rating, hq, he]
    · have hne : q.1 ≠ sk := fun e => by simp [e] at hq
      by_cases hmem : sk ∈ rest.map Prod.fst
      · simp [set_rating, hq, ih, hmem, hne]
      · simp [set_rating, hq, ih, hmem, Ne.symm hne]

theorem set_score_inv (sc : ScoreMap) (dk sk : String) (v : Int)
    (hpair : (dk, sk) ∈ catalog_pairs) (hv1 : 1 ≤ v) (hv2 : v ≤ 10)
    (h : wizard_inv sc) : wizard_inv (set_score sc dk sk v) := by
  induction sc with
  | nil =>
    constructor
    · intro p hp r hr
      simp [set_score] at hp
      subst hp
      simp at hr
      subst hr
      exact ⟨hpair, hv1, hv2⟩
    · intro p hp
      simp [set_score] at hp
      subst hp
      simp
  | cons e rest ih =>
    obtain ⟨h1, h2⟩ := h
    have hrest : wizard_inv rest :=
      ⟨fun p hp r hr => h1 p (List.mem_cons_of_mem _ hp) r hr,
       fun p hp => h2 p (List.mem_cons_of_mem _ hp)⟩
    by_cases he : e.1 == dk
    · have heq : e.1 = dk := eq_of_beq he
      constructor
      · intro p hp r hr
        simp only [set_score, he, if_true] at hp
        rcases List.mem_cons.mp hp with hp | hp
        · subst hp
          rcases set_rating_mem _ _ _ r hr with hrr | hrm
          · subst hrr
            exact ⟨heq ▸ hpair, hv1, hv2⟩
          · exact h1 e (List.mem_cons_self _ _) r hrm
        · exact h1 p (List.mem_cons_of_mem _ hp) r hr
      · intro p hp
        simp only [set_score, he, if_true] at hp
        rcases List.mem_cons.mp hp with hp | hp
        · subst hp
          have hnd : (e.2.map Prod.fst).Nodup := h2 e (List.mem_cons_self _ _)
          show ((set_rating e.2 sk v).map Prod.fst).Nodup
          rw [set_rating_keys]
          split_ifs with hm
          · exact hnd
          · simp [List.nodup_append, hnd, hm]
        · exact h2 p (List.mem_cons_of_mem _ hp)
    · have hih := ih hrest
      constructor
      · intro p hp r hr
        simp only [set_score, he, Bool.false_eq_true, if_false] at hp
        rcases List.mem_cons.mp hp with hp | hp
        · subst hp
          exact h1 _ (List.mem_cons_self _ _) r hr
        · exact hih.1 p hp r hr
      · intro p hp
        simp only [set_score, he, Bool.false_eq_true, if_false] at hp
        rcases List.mem_cons.mp hp with hp | hp
        · subst hp
          exact h2 _ (List.mem_cons_self _ _)
        · exact hih.2 p hp

theorem rating_range : ∀ v ∈ rating_keys, v ≠ 0 ∧ 1 ≤ v ∧ v ≤ 10 := by decide

theorem render_inv (qs : List Question) (choice : Question → Int) (sc : ScoreMap)
    (hch : ∀ q, choice q ∈ rating_keys) :
    (∀ q ∈ qs, (q.dimension_key, q.statement_key) ∈ catalog_pairs) →
      wizard_inv sc → wizard_inv (show_wizard_render qs choice sc) := by
  induction qs generalizing sc with
  | nil =>
    intro _ h
    exact h
  | cons q qs ih =>
    intro hqs h
    have hstep : show_wizard_render (q :: qs) choice sc =
        show_wizard_render qs choice (store_response sc q (choice q)) := rfl
    rw [hstep]
    refine ih _ (fun x hx => hqs x (List.mem_cons_of_mem _ hx)) ?_
    unfold store_response
    split_ifs with hz
    · exact set_score_inv sc _ _ _ (hqs q (List.mem_cons_self _ _))
        (rating_range _ (hch q)).2.1 (rating_range _ (hch q)).2.2 h
    · exact h

theorem sum_bounds (l : List Int) (lo hi : Int)
    (h : ∀ x ∈ l, lo ≤ x ∧ x ≤ hi) :
    (l.length : Int) * lo ≤ l.sum ∧ l.sum ≤ (l.length : Int) * hi := by
  induction l with
  | nil => simp
  | cons x l ih =>
    have hx := h x (List.mem_cons_self x l)
    have hl := ih (fun y hy => h y (List.mem_cons_of_mem x hy))
    simp only [List.sum_cons, List.length_cons]
    push_cast
    constructor <;> nlinarith [hl.1, hl.2, hx.1, hx.2]

theorem statement_keys_nodup : ∀ dk ∈ dimension_keys, (statement_keys dk).Nodup := by
  decide

theorem statement_keys_length : ∀ dk ∈ dimension_keys, (statement_keys dk).length = 6 := by
  decide

theorem catalog_pairs_key : ∀ p ∈ catalog_pairs,
    p.1 ∈ dimension_keys ∧ p.2 ∈ statement_keys p.1 := by
  decide

theorem pair_mem_catalog : ∀ dk ∈ dimension_keys, ∀ sk ∈ statement_keys dk,
    (dk, sk) ∈ catalog_pairs := by
  decide

/-! ## C10 -/

/-- C10: for any session ordering of the 48 catalog questions and any choices
drawn from the rating dropdown (whose options are exactly the integers 1-10,
defaulting to 1), rendering the questionnaire page stores a rating for every
(dimension, statement) pair of the catalog; every stored rating lies in
[1,10] — never 0, absent, or out of range — and every per-dimension total of
the resulting score map lies in [6,60]. -/
theorem c10_wizard_ratings (qs : List Question) (choice : Question → Int)
    (hqs : qs.Perm all_questions)
    (hch : ∀ q, choice q ∈ rating_keys) :
    (∀ dk ∈ dimension_keys, ∀ sk ∈ statement_keys dk,
      ∃ v, lookup_rating (show_wizard_render qs choice []) dk sk = some v ∧
        1 ≤ v ∧ v ≤ 10) ∧
    (∀ p ∈ show_wizard_render qs choice [], ∀ r ∈ p.2, 1 ≤ r.2 ∧ r.2 ≤ 10) ∧
    (∀ dk ∈ dimension_keys,
      6 ≤ calculate_dimension_score (show_wizard_render qs choice []) dk ∧
      calculate_dimension_score (show_wizard_render qs choice []) dk ≤ 60) := by
  have hchz : ∀ q ∈ qs, choice q ≠ 0 := fun q _ => (rating_range _ (hch q)).1
  have hchr : ∀ q : Question, 1 ≤ choice q ∧ choice q ≤ 10 :=
    fun q => (rating_range _ (hch q)).2
  have hqcat : ∀ q ∈ qs, (q.dimension_key, q.statement_key) ∈ catalog_pairs := by
    intro q hq
    have hmem : (q.dimension_key, q.statement_key) ∈
        all_questions.map (fun q => (q.dimension_key, q.statement_key)) :=
      List.mem_map.mpr ⟨q, hqs.mem_iff.mp hq, rfl⟩
    rwa [all_questions_pairs] at hmem
  have hinv : wizard_inv (show_wizard_render qs choice []) :=
    render_inv qs choice [] hch hqcat ⟨by simp, by simp⟩
  have part1 : ∀ dk ∈ dimension_keys, ∀ sk ∈ statement_keys dk,
      ∃ v, lookup_rating (show_wizard_render qs choice []) dk sk = some v ∧
        1 ≤ v ∧ v ≤ 10 := by
    intro dk hdk sk hsk
    have hpair : (dk, sk) ∈ catalog_pairs := pair_mem_catalog dk hdk sk hsk
    have hpair' : (dk, sk) ∈
        all_questions.map (fun q => (q.dimension_key, q.statement_key)) := by
      rw [all_questions_pairs]
      exact hpair
    obtain ⟨q, hqm, hqe⟩ := List.mem_map.mp hpair'
    have hpq : (fun q : Question => q.dimension_key == dk && q.statement_key == sk) q
        = true := by
      have h1 : q.dimension_key = dk := congrArg Prod.fst hqe
      have h2 : q.statement_key = sk := congrArg Prod.snd hqe
      simp [h1, h2]
    have hfind : (qs.reverse.find?
        (fun q => q.dimension_key == dk && q.statement_key == sk)).isSome :=
      List.find?_isSome.mpr ⟨q, List.mem_reverse.mpr (hqs.mem_iff.mpr hqm), hpq⟩
    obtain ⟨q', hq'⟩ := Option.isSome_iff_exists.mp hfind
    rw [lookup_rating_render qs choice [] hchz dk sk, hq']
    exact ⟨choice q', rfl, hchr q'⟩
  refine ⟨part1, ?_, ?_⟩
  · intro p hp r hr
    exact (hinv.1 p hp r hr).2
  · intro dk hdk
    have hlen6 := statement_keys_length dk hdk
    have hpos : 0 < (statement_keys dk).length := by
      rw [hlen6]
      norm_num
    obtain ⟨sk0, hsk0⟩ := List.exists_mem_of_length_pos hpos
    obtain ⟨v0, hv0, _, _⟩ := part1 dk hdk sk0 hsk0
    unfold lookup_rating at hv0
    cases hm : (show_wizard_render qs choice []).lookup dk with
    | none =>
      rw [hm] at hv0
      simp at hv0
    | some m =>
      have hmem : (dk, m) ∈ show_wizard_render qs choice [] := lookup_mem hm
      have hnd : (m.map Prod.fst).Nodup := hinv.2 _ hmem
      have hsub : m.map Prod.fst ⊆ statement_keys dk := by
        intro k hk
        obtain ⟨r, hr, hre⟩ := List.mem_map.mp hk
        have hcat := (hinv.1 _ hmem r hr).1
        have := (catalog_pairs_key _ hcat).2
        rwa [hre] at this
      have hsup : statement_keys dk ⊆ m.map Prod.fst := by
        intro sk hsk
        obtain ⟨v, hv, _, _⟩ := part1 dk hdk sk hsk
        unfold lookup_rating at hv
        rw [hm] at hv
        simp only [Option.some_bind] at hv
        exact mem_keys_of_lookup hv
      have hndS : (statement_keys dk).Nodup := statement_keys_nodup dk hdk
      have hle : (m.map Prod.fst).length ≤ 6 := by
        have := (hnd.subperm hsub).length_le
        rwa [hlen6] at this
      have hge : 6 ≤ (m.map Prod.fst).length := by
        have := (hndS.subperm hsup).length_le
        rwa [hlen6] at this
      have hmlen : (m.map Prod.snd).length = 6 := by
        rw [List.length_map]
        rw [List.length_map] at hle hge
        omega
      have hvals : ∀ x ∈ m.map Prod.snd, 1 ≤ x ∧ x ≤ 10 := by
        intro x hx
        obtain ⟨r, hr, hre⟩ := List.mem_map.mp hx
        have := (hinv.1 _ hmem r hr).2
        rwa [hre] at this
      have hb := sum_bounds (m.map Prod.snd) 1 10 hvals
      have hcds : calculate_dimension_score (show_wizard_render qs choice []) dk =
          (m.map Prod.snd).sum := by
        unfold calculate_dimension_score
        rw [hm]
      rw [hcds]
      rw [hmlen] at hb
      constructor
      · have := hb.1
        push_cast at this
        linarith
      · have := hb.2
        push_cast at this
        linarith

/-- Witness for C10: the catalog-order question list with every answer left at
the dropdown default 1 gives the "purpose_vision" dimension a total inside
[6,60]. -/
theorem c10_wizard_ratings_witness :
    6 ≤ calculate_dimension_score
        (show_wizard_render all_questions (fun _ => 1) []) "purpose_vision" ∧
    calculate_dimension_score
        (show_wizard_render all_questions (fun _ => 1) []) "purpose_vision" ≤ 60 :=
  (c10_wizard_ratings all_questions (fun _ => 1) (List.Perm.refl all_questions)
    (fun _ => show (1 : Int) ∈ rating_keys by decide)).2.2 "purpose_vision" (by decide)
